import Mathlib

/-!
Shallow embedding of the scoring and recommendation engine of
`recommendation_system.py` (Udemy course recommendation system).

Modelling conventions:
* A dataframe row is a `Course` record; the dataframe is a `Dataset`
  (a list of rows plus a flag recording whether the optional
  `quality_score` column is present, mirroring the
  `'quality_score' in df.columns` check).
* Numeric columns are exact rationals (every Python float is a rational);
  counts are naturals.  Pandas' elementwise column arithmetic becomes
  `List.map` / pointwise formulas.
* The dataframes in the app carry the default `RangeIndex`, so the pandas
  label `df[...].index[0]` coincides with the positional row number and
  `df.iloc[k]` is positional access; both are modelled as list indexing.
* Fallible code (a Python statement that can raise, caught by
  `try/except`) is modelled with `Except`; the `except` branch of
  `get_recommendations` (which shows `st.error` and returns an empty
  frame) is the `Except.error` outcome, while a normal return — even of
  an empty frame — is `Except.ok`.
-/

/-- A raw course record: the columns of the `udemy_courses` table that the
engine reads (see `run_data_import.py` for the column list). -/
structure Course where
  course_id : ℕ
  course_title : String
  subject : String
  level : String
  price : ℚ
  num_subscribers : ℕ
  num_reviews : ℕ
  review_rate : ℚ
  popularity_score : ℚ
  quality_score : ℚ
  content_duration : ℚ
deriving DecidableEq, Inhabited, Repr

/-- A dataframe: its rows plus whether the optional `quality_score`
column is present (`'quality_score' in df.columns`). -/
structure Dataset where
  rows : List Course
  hasQualityCol : Bool
deriving DecidableEq, Inhabited, Repr

/-- Pandas `Series.mean()`: sum divided by the number of entries.  On an
empty column pandas yields NaN; the Lean value (division by zero, i.e. 0)
is junk in exactly that case, and no theorem below relies on it: an empty
dataframe has no rows for the junk value to end up in. -/
def mean (l : List ℚ) : ℚ := l.sum / l.length

/-- Embedding of `calculate_bayesian_average(df, score_col, count_col,
min_reviews)` (recommendation_system.py lines 45-52).  The two column
names become accessor functions.  `C = df[score_col].mean()`,
`adjusted = (v / (v + m)) * R + (m / (v + m)) * C` elementwise. -/
def calculate_bayesian_average (rows : List Course) (score : Course → ℚ)
    (countCol : Course → ℕ) (min_reviews : ℚ) : List ℚ :=
  let C := mean (rows.map score)
  let m := min_reviews
  rows.map (fun r =>
    ((countCol r : ℚ) / ((countCol r : ℚ) + m)) * score r
      + (m / ((countCol r : ℚ) + m)) * C)

/-- Embedding of `calculate_confidence_level(num_reviews)`
(recommendation_system.py lines 54-63). -/
def calculate_confidence_level (num_reviews : ℕ) : String :=
  if 100 ≤ num_reviews then "High"
  else if 20 ≤ num_reviews then "Medium"
  else if 5 ≤ num_reviews then "Low"
  else "Very Low"

/-- An enriched course row: the raw columns plus the derived columns
added by `enhance_dataframe`.  `bayesian_quality = none` models the
absence of the `bayesian_quality` column (added only when the input has a
`quality_score` column). -/
structure ECourse where
  course_id : ℕ
  course_title : String
  subject : String
  level : String
  price : ℚ
  num_subscribers : ℕ
  num_reviews : ℕ
  review_rate : ℚ
  popularity_score : ℚ
  quality_score : ℚ
  content_duration : ℚ
  bayesian_popularity : ℚ
  bayesian_quality : Option ℚ
  confidence_level : String
  engagement_per_subscriber : ℚ
  is_suspicious : Bool
deriving DecidableEq, Inhabited, Repr

/-- Embedding of `enhance_dataframe(df)` (recommendation_system.py lines
65-80).  The function copies the frame (`df = df.copy()`) and only adds
columns, so it is a pure map producing enriched rows; the pandas column
assignments align by the shared `RangeIndex`, modelled by positional
indexing.  Per source line:
* 68: `bayesian_popularity` from `calculate_bayesian_average` on
  `popularity_score` with `min_reviews=10`;
* 70-71: `bayesian_quality` likewise, only if the column exists;
* 73: `confidence_level` from `num_reviews`;
* 74-77: `engagement_per_subscriber = num_reviews / num_subscribers` if
  `num_subscribers > 0` else `0`;
* 78: `is_suspicious = (review_rate >= 0.99) & (num_subscribers < 50)` —
  note this reads the input `review_rate` column, not the recomputed
  engagement rate. -/
def enhance_dataframe (d : Dataset) : List ECourse :=
  let bp := calculate_bayesian_average d.rows Course.popularity_score Course.num_reviews 10
  let bq := if d.hasQualityCol
    then some (calculate_bayesian_average d.rows Course.quality_score Course.num_reviews 10)
    else none
  (List.range d.rows.length).map (fun i =>
    let c := d.rows.getD i default
    { course_id := c.course_id
      course_title := c.course_title
      subject := c.subject
      level := c.level
      price := c.price
      num_subscribers := c.num_subscribers
      num_reviews := c.num_reviews
      review_rate := c.review_rate
      popularity_score := c.popularity_score
      quality_score := c.quality_score
      content_duration := c.content_duration
      bayesian_popularity := bp.getD i 0
      bayesian_quality := bq.map (fun l => l.getD i 0)
      confidence_level := calculate_confidence_level c.num_reviews
      engagement_per_subscriber :=
        if 0 < c.num_subscribers then (c.num_reviews : ℚ) / (c.num_subscribers : ℚ) else 0
      is_suspicious :=
        decide ((99 / 100 : ℚ) ≤ c.review_rate) && decide (c.num_subscribers < 50) })

/-- The error taxonomy of the spec (section 7). -/
inductive EngineError where
  | insufficientData
  | emptyCorpus
  | notFound
  | invalidParameter
deriving DecidableEq, Repr

/-- The run outcome of `calculate_bayesian_average` through the engine's
error channel.  No statement in the Python body can raise on any
dataframe input: `df[score_col].mean()` on an empty column yields NaN
(not an exception), and the subsequent elementwise arithmetic over an
empty frame yields an empty column.  The outcome is therefore always
`ok` with the computed column. -/
def calcBayesianRun (rows : List Course) (score : Course → ℚ)
    (countCol : Course → ℕ) (min_reviews : ℚ) : Except EngineError (List ℚ) :=
  Except.ok (calculate_bayesian_average rows score countCol min_reviews)

/-- A row of the dataframe returned by `get_recommendations`
(recommendation_system.py lines 104-114): the nine columns of the
appended dict. -/
structure RecEntry where
  course_id : ℕ
  course_title : String
  subject : String
  price : ℚ
  num_subscribers : ℕ
  num_reviews : ℕ
  bayesian_popularity : ℚ
  confidence_level : String
  similarity_score : ℚ
deriving DecidableEq, Inhabited, Repr

/-- The dict appended for an admitted candidate (lines 104-114).  The
input frame is enriched, so `course.get('bayesian_popularity', ...)` and
`course.get('confidence_level', 'Unknown')` find their columns. -/
def mkRecEntry (c : ECourse) (sim : ℚ) : RecEntry :=
  { course_id := c.course_id
    course_title := c.course_title
    subject := c.subject
    price := c.price
    num_subscribers := c.num_subscribers
    num_reviews := c.num_reviews
    bayesian_popularity := c.bayesian_popularity
    confidence_level := c.confidence_level
    similarity_score := sim }

/-- One insertion step of a stable descending sort by the second
component: the new element goes in front of the first element whose key
is less than or equal to its own. -/
def insertDesc (x : ℕ × ℚ) : List (ℕ × ℚ) → List (ℕ × ℚ)
  | [] => [x]
  | y :: ys => if y.2 ≤ x.2 then x :: y :: ys else y :: insertDesc x ys

/-- Embedding of `sorted(sim_scores, key=lambda x: x[1], reverse=True)`
(line 97).  Python's `sorted` is a stable sort, and with `reverse=True`
equal keys still keep their original order; a stable sort's output is
uniquely determined by the key order, so this stable insertion sort
computes the same list. -/
def sortDesc (l : List (ℕ × ℚ)) : List (ℕ × ℚ) := l.foldr insertDesc []

/-- The candidate walk of `get_recommendations` (lines 100-116): for each
`(score_idx, similarity)` in order, admit the candidate iff
`num_reviews >= min_reviews and not is_suspicious`, then stop as soon as
`len(recommendations) >= n` (checked after every candidate, admitted or
not).  `df.iloc[score_idx]` raises `IndexError` when `score_idx` is out
of range, which the surrounding `except` turns into the error outcome. -/
def recLoop (df : List ECourse) (min_reviews n : ℕ) :
    List (ℕ × ℚ) → List RecEntry → Except Unit (List RecEntry)
  | [], acc => Except.ok acc
  | p :: rest, acc =>
    if p.1 < df.length then
      let c := df.getD p.1 default
      let acc' := if min_reviews ≤ c.num_reviews ∧ c.is_suspicious = false
        then acc ++ [mkRecEntry c p.2] else acc
      if n ≤ acc'.length then Except.ok acc' else recLoop df min_reviews n rest acc'
    else Except.error ()

/-- Embedding of `get_recommendations(course_id, df, cosine_sim, n,
min_reviews)` (recommendation_system.py lines 92-121).
* line 95: `df[df['course_id'] == course_id].index[0]` — the first
  (positional, by the `RangeIndex`) row whose `course_id` matches;
  `IndexError` on no match is caught by the `except`, giving the error
  outcome (`st.error` plus an empty frame).
* line 96: `sim_scores = list(enumerate(cosine_sim[idx]))`; an `idx` out
  of the matrix's range likewise raises and gives the error outcome.
* line 97: stable sort by similarity, descending.
* line 98: `sim_scores = sim_scores[1:]` drops the first element of the
  sorted list (intended to drop the query course itself).
* lines 100-118: the candidate walk `recLoop`. -/
def get_recommendations (course_id : ℕ) (df : List ECourse)
    (cosine_sim : List (List ℚ)) (n : ℕ) (min_reviews : ℕ) :
    Except Unit (List RecEntry) :=
  match df.findIdx? (fun c => c.course_id == course_id) with
  | none => Except.error ()
  | some idx =>
    match cosine_sim.get? idx with
    | none => Except.error ()
    | some row => recLoop df min_reviews n (sortDesc row.enum).tail []

/-- The entry built for the candidate at row `p.1` with similarity `p.2`
(used to relate the entries of the result to their row indices). -/
def mkEntryAt (df : List ECourse) (p : ℕ × ℚ) : RecEntry :=
  mkRecEntry (df.getD p.1 default) p.2

/-- The same candidate walk as `recLoop`, recording for each admitted
candidate its `(score_idx, similarity)` pair instead of the built entry;
`recLoop` is its image under `mkEntryAt` (see the lemmas below). -/
def recLoopP (df : List ECourse) (min_reviews n : ℕ) :
    List (ℕ × ℚ) → List (ℕ × ℚ) → Except Unit (List (ℕ × ℚ))
  | [], acc => Except.ok acc
  | p :: rest, acc =>
    if p.1 < df.length then
      let c := df.getD p.1 default
      let acc' := if min_reviews ≤ c.num_reviews ∧ c.is_suspicious = false
        then acc ++ [p] else acc
      if n ≤ acc'.length then Except.ok acc' else recLoopP df min_reviews n rest acc'
    else Except.error ()

/-- `get_recommendations` with the admitted candidates reported as
`(score_idx, similarity)` pairs. -/
def getRecPairs (course_id : ℕ) (df : List ECourse)
    (cosine_sim : List (List ℚ)) (n : ℕ) (min_reviews : ℕ) :
    Except Unit (List (ℕ × ℚ)) :=
  match df.findIdx? (fun c => c.course_id == course_id) with
  | none => Except.error ()
  | some idx =>
    match cosine_sim.get? idx with
    | none => Except.error ()
    | some row => recLoopP df min_reviews n (sortDesc row.enum).tail []

/-- Descending-with-stable-ties order on `(row index, similarity)`
pairs: an earlier element has strictly larger similarity, or the same
similarity and a strictly smaller original row index. -/
def stableLex (p q : ℕ × ℚ) : Prop :=
  q.2 < p.2 ∨ (p.2 = q.2 ∧ p.1 < q.1)

/-- A word character for sklearn's default token pattern
`(?u)\b\w\w+\b` (letters, digits, underscore; ASCII view, which covers
the course data). -/
def isWordChar (ch : Char) : Bool := ch.isAlphanum || ch = '_'

/-- Maximal runs of word characters in a character list (the accumulator
holds the current run, reversed). -/
def wordRuns (cur : List Char) : List Char → List (List Char)
  | [] => if cur.isEmpty then [] else [cur.reverse]
  | ch :: cs =>
    if isWordChar ch then wordRuns (ch :: cur) cs
    else if cur.isEmpty then wordRuns [] cs
    else cur.reverse :: wordRuns [] cs

/-- sklearn tokenization for `TfidfVectorizer`: lowercase, then the
matches of `\b\w\w+\b`, i.e. the maximal word-character runs of length at
least 2. -/
def tokenize (s : String) : List String :=
  ((wordRuns [] (s.toList.map Char.toLower)).filter (fun r => 2 ≤ r.length)).map
    (fun r => String.mk r)

/-- sklearn's built-in English stop-word list
(`sklearn.feature_extraction.text.ENGLISH_STOP_WORDS`), selected by
`stop_words='english'` at recommendation_system.py line 87. -/
def english_stop_words : List String :=
  ["a", "about", "above", "across", "after", "afterwards", "again",
   "against", "all", "almost", "alone", "along", "already", "also",
   "although", "always", "am", "among", "amongst", "amoungst", "amount",
   "an", "and", "another", "any", "anyhow", "anyone", "anything",
   "anyway", "anywhere", "are", "around", "as", "at", "back", "be",
   "became", "because", "become", "becomes", "becoming", "been",
   "before", "beforehand", "behind", "being", "below", "beside",
   "besides", "between", "beyond", "bill", "both", "bottom", "but", "by",
   "call", "can", "cannot", "cant", "co", "con", "could", "couldnt",
   "cry", "de", "describe", "detail", "do", "done", "down", "due",
   "during", "each", "eg", "eight", "either", "eleven", "else",
   "elsewhere", "empty", "enough", "etc", "even", "ever", "every",
   "everyone", "everything", "everywhere", "except", "few", "fifteen",
   "fifty", "fill", "find", "fire", "first", "five", "for", "former",
   "formerly", "forty", "found", "four", "from", "front", "full",
   "further", "get", "give", "go", "had", "has", "hasnt", "have", "he",
   "hence", "her", "here", "hereafter", "hereby", "herein", "hereupon",
   "hers", "herself", "him", "himself", "his", "how", "however",
   "hundred", "i", "ie", "if", "in", "inc", "indeed", "interest", "into",
   "is", "it", "its", "itself", "keep", "last", "latter", "latterly",
   "least", "less", "ltd", "made", "many", "may", "me", "meanwhile",
   "might", "mill", "mine", "more", "moreover", "most", "mostly", "move",
   "much", "must", "my", "myself", "name", "namely", "neither", "never",
   "nevertheless", "next", "nine", "no", "nobody", "none", "noone",
   "nor", "not", "nothing", "now", "nowhere", "of", "off", "often", "on",
   "once", "one", "only", "onto", "or", "other", "others", "otherwise",
   "our", "ours", "ourselves", "out", "over", "own", "part", "per",
   "perhaps", "please", "put", "rather", "re", "same", "see", "seem",
   "seemed", "seeming", "seems", "serious", "several", "she", "should",
   "show", "side", "since", "sincere", "six", "sixty", "so", "some",
   "somehow", "someone", "something", "sometime", "sometimes",
   "somewhere", "still", "such", "system", "take", "ten", "than", "that",
   "the", "their", "them", "themselves", "then", "thence", "there",
   "thereafter", "thereby", "therefore", "therein", "thereupon", "these",
   "they", "thick", "thin", "third", "this", "those", "though", "three",
   "through", "throughout", "thru", "thus", "to", "together", "too",
   "top", "toward", "towards", "twelve", "twenty", "two", "un", "under",
   "until", "up", "upon", "us", "very", "via", "was", "we", "well",
   "were", "what", "whatever", "when", "whence", "whenever", "where",
   "whereafter", "whereas", "whereby", "wherein", "whereupon",
   "wherever", "whether", "which", "while", "whither", "who", "whoever",
   "whole", "whom", "whose", "why", "will", "with", "within", "without",
   "would", "yet", "you", "your", "yours", "yourself", "yourselves"]

/-- The vectorizer's analyzer: tokenize, then drop stop words. -/
def analyzer (s : String) : List String :=
  (tokenize s).filter (fun t => !english_stop_words.contains t)

/-- The content string built at recommendation_system.py line 86:
`df['course_title'].fillna('') + ' ' + df['subject'].fillna('')`
(titles/subjects are non-null strings in the model, so `fillna` is the
identity). -/
def contentOf (c : Course) : String := c.course_title ++ " " ++ c.subject

/-- The analyzed corpus: one token list per course row, in row order. -/
def docsOf (rows : List Course) : List (List String) :=
  rows.map (fun c => analyzer (contentOf c))

/-- Total number of occurrences of a term across the corpus (sklearn
orders features by this count when applying `max_features`). -/
def termFreq (docs : List (List String)) (t : String) : ℕ :=
  (docs.map (fun doc => doc.count t)).sum

/-- Insertion step of an alphabetical insertion sort on strings. -/
def insertStr (x : String) : List String → List String
  | [] => [x]
  | y :: ys => if x ≤ y then x :: y :: ys else y :: insertStr x ys

/-- Alphabetical sort of a string list (sklearn sorts the fitted
vocabulary alphabetically). -/
def sortStr (l : List String) : List String := l.foldr insertStr []

/-- Insertion step of a stable sort placing higher corpus-frequency
terms first (equal frequencies end up in reverse base order, matching
the reversed stable argsort in sklearn's `_limit_features`). -/
def insertByFreq (docs : List (List String)) (x : String) :
    List String → List String
  | [] => [x]
  | y :: ys =>
    if termFreq docs y < termFreq docs x then x :: y :: ys
    else y :: insertByFreq docs x ys

/-- The fitted vocabulary of `TfidfVectorizer(stop_words='english',
max_features=500)`: the distinct analyzed terms in alphabetical order;
when there are more than 500, only the 500 with the highest corpus
frequency are kept (sklearn `_limit_features`, modelled from its
documented behaviour), alphabetical order restored afterwards. -/
def vocabulary (docs : List (List String)) : List String :=
  let allTerms := sortStr docs.flatten.dedup
  if allTerms.length ≤ 500 then allTerms
  else sortStr ((allTerms.foldr (insertByFreq docs) []).take 500)

/-- Number of documents containing a term. -/
def docFreq (docs : List (List String)) (t : String) : ℕ :=
  docs.countP (fun doc => doc.contains t)

/-- Smoothed inverse document frequency, sklearn's default
(`smooth_idf=True`): `ln((1 + n) / (1 + df(t))) + 1`. -/
noncomputable def idf (docs : List (List String)) (t : String) : ℝ :=
  Real.log ((1 + (docs.length : ℝ)) / (1 + (docFreq docs t : ℝ))) + 1

/-- Unnormalized tf-idf feature vector of one document over the fitted
vocabulary: raw term count times idf, one coordinate per vocabulary
term. -/
noncomputable def tfidfRow (docs : List (List String)) (doc : List String) :
    List ℝ :=
  (vocabulary docs).map (fun t => (doc.count t : ℝ) * idf docs t)

/-- Dot product of two coordinate lists (trailing coordinates of the
longer list are ignored, as with vectors of equal length padded by
zeros). -/
def dotR : List ℝ → List ℝ → ℝ
  | x :: xs, y :: ys => x * y + dotR xs ys
  | _, _ => 0

/-- Euclidean (l2) row normalization as sklearn performs it (both inside
`TfidfVectorizer`, `norm='l2'` being the default, and inside
`cosine_similarity`): divide by the l2 norm, leaving all-zero rows
unchanged (sklearn replaces zero norms by 1). -/
noncomputable def l2normalize (v : List ℝ) : List ℝ :=
  if Real.sqrt (dotR v v) = 0 then v
  else v.map (fun x => x / Real.sqrt (dotR v v))

/-- The matrix returned by `tfidf.fit_transform(df['content'])` (line
88): one l2-normalized tf-idf row per course, in row order. -/
noncomputable def tfidfMatrix (rows : List Course) : List (List ℝ) :=
  (docsOf rows).map (fun doc => l2normalize (tfidfRow (docsOf rows) doc))

/-- `sklearn.metrics.pairwise.cosine_similarity(X, X)` (line 89): entry
`(i, j)` is the dot product of the l2-normalized rows `i` and `j`. -/
noncomputable def cosine_similarity (X : List (List ℝ)) (i j : ℕ) : ℝ :=
  dotR (l2normalize (X.getD i [])) (l2normalize (X.getD j []))

/-- Embedding of `build_recommender(_df)` (recommendation_system.py
lines 82-90): the pairwise cosine-similarity matrix over the tf-idf
vectors of the content strings, returned together with the dataframe
(whose added `content` column is `contentOf`). -/
noncomputable def build_recommender (rows : List Course) :
    (ℕ → ℕ → ℝ) × List Course :=
  (fun i j => cosine_similarity (tfidfMatrix rows) i j, rows)

/-- A sample raw course row used by the concrete instances below. -/
def baseCourse : Course :=
  { course_id := 1
    course_title := "python for beginners"
    subject := "Business Finance"
    level := "All Levels"
    price := 20
    num_subscribers := 1000
    num_reviews := 100
    review_rate := 1 / 10
    popularity_score := 1 / 2
    quality_score := 2 / 5
    content_duration := 5 }

/-- A sample enriched course row used by the concrete instances below
(a non-suspicious course with 100 reviews). -/
def baseECourse : ECourse :=
  { course_id := 1
    course_title := "python for beginners"
    subject := "Business Finance"
    level := "All Levels"
    price := 20
    num_subscribers := 1000
    num_reviews := 100
    review_rate := 1 / 10
    popularity_score := 1 / 2
    quality_score := 2 / 5
    content_duration := 5
    bayesian_popularity := 1 / 2
    bayesian_quality := none
    confidence_level := "High"
    engagement_per_subscriber := 1 / 10
    is_suspicious := false }

/-- Two enriched courses with identical content (same title and
subject) and distinct identities: the corpus that makes the similarity
of course 1 to course 2 exactly 1. -/
def dfDup : List ECourse :=
  [baseECourse, { baseECourse with course_id := 2 }]

/-- The cosine-similarity matrix of two identical content strings: all
entries 1 (each row's tf-idf vector equals the other's). -/
def simDup : List (List ℚ) := [[1, 1], [1, 1]]

/-- One-row enriched dataframe for the C2 witness. -/
def dfC2 : List ECourse := [baseECourse]

/-- Its 1-by-1 similarity matrix. -/
def simC2 : List (List ℚ) := [[1]]

/-- Two-row dataset for the C3 witness. -/
def d3 : Dataset :=
  { rows := [baseCourse,
             { baseCourse with course_id := 2, num_reviews := 10, popularity_score := 1 / 4 }]
    hasQualityCol := true }

/-- One-row dataset whose stored engagement-rate column says 1. -/
def d4a : Dataset :=
  { rows := [{ baseCourse with num_subscribers := 10, num_reviews := 10, review_rate := 1 }]
    hasQualityCol := false }

/-- The same row except that the stored engagement-rate column says 0;
review and subscriber counts agree with `d4a`. -/
def d4b : Dataset :=
  { rows := [{ baseCourse with num_subscribers := 10, num_reviews := 10, review_rate := 0 }]
    hasQualityCol := false }

/-- A dataset agreeing with `d4a` on the engagement-rate column and the
subscriber count but differing elsewhere (price, title). -/
def d4c : Dataset :=
  { rows := [{ baseCourse with
               course_title := "excel basics"
               price := 95
               num_subscribers := 10
               num_reviews := 10
               review_rate := 1 }]
    hasQualityCol := false }

/-- Three enriched courses with distinct ids and similarities for the C6
instances: course 1 is the query; courses 2 and 3 qualify. -/
def dfC6 : List ECourse :=
  [baseECourse,
   { baseECourse with course_id := 2 },
   { baseECourse with course_id := 3 }]

/-- A 3-by-3 similarity matrix for `dfC6`: courses 1 and 2 have
identical content (similarity 1), course 3 is unrelated. -/
def simC6 : List (List ℚ) := [[1, 1, 0], [1, 1, 0], [0, 0, 1]]

/-- One-row dataset whose row is suspicious (engagement rate 1, 10
subscribers). -/
def d8 : Dataset :=
  { rows := [{ baseCourse with num_subscribers := 10, num_reviews := 10, review_rate := 1 }]
    hasQualityCol := false }

/-- Corpus for the C9 counterexample: the first course's content yields
the term "python"; the second course's content is empty, so its feature
vector is zero. -/
def rows9 : List Course :=
  [{ baseCourse with course_title := "python", subject := "" },
   { baseCourse with course_id := 2, course_title := "", subject := "" }]

/-- One-course corpus for the C9 witness: content yields the term
"python". -/
def rows9w : List Course :=
  [{ baseCourse with course_title := "python", subject := "" }]

/-- One-row dataset for the C10 witness. -/
def d10 : Dataset := { rows := [baseCourse], hasQualityCol := true }

/-! ### Helper lemmas -/

lemma getD_range_map {α : Type} (n : ℕ) (f : ℕ → α) (i : ℕ) (hd : α)
    (h : i < n) : ((List.range n).map f).getD i hd = f i := by
  rw [List.getD_eq_getElem _ _ (by simpa using h)]
  simp

lemma getD_map_of_lt {α β : Type} (f : α → β) (l : List α) (i : ℕ)
    (hd : β) (d' : α) (h : i < l.length) :
    (l.map f).getD i hd = f (l.getD i d') := by
  rw [List.getD_eq_getElem _ _ (by simpa using h), List.getD_eq_getElem _ _ h]
  simp

lemma enhance_length (d : Dataset) :
    (enhance_dataframe d).length = d.rows.length := by
  simp [enhance_dataframe]

lemma calc_bayes_getD (rows : List Course) (score : Course → ℚ)
    (countCol : Course → ℕ) (m : ℚ) (i : ℕ) (h : i < rows.length) :
    (calculate_bayesian_average rows score countCol m).getD i 0 =
      ((countCol (rows.getD i default) : ℚ)
          / ((countCol (rows.getD i default) : ℚ) + m)) * score (rows.getD i default)
        + (m / ((countCol (rows.getD i default) : ℚ) + m))
          * ((rows.map score).sum / (rows.length : ℚ)) := by
  unfold calculate_bayesian_average mean
  rw [getD_map_of_lt _ _ _ _ default h]
  simp

lemma enhance_getD (d : Dataset) (i : ℕ) (h : i < d.rows.length) :
    (enhance_dataframe d).getD i default =
      (let c := d.rows.getD i default
       { course_id := c.course_id
         course_title := c.course_title
         subject := c.subject
         level := c.level
         price := c.price
         num_subscribers := c.num_subscribers
         num_reviews := c.num_reviews
         review_rate := c.review_rate
         popularity_score := c.popularity_score
         quality_score := c.quality_score
         content_duration := c.content_duration
         bayesian_popularity :=
           (calculate_bayesian_average d.rows Course.popularity_score Course.num_reviews 10).getD i 0
         bayesian_quality := if d.hasQualityCol
           then some ((calculate_bayesian_average d.rows Course.quality_score Course.num_reviews 10).getD i 0)
           else none
         confidence_level := calculate_confidence_level c.num_reviews
         engagement_per_subscriber :=
           if 0 < c.num_subscribers then (c.num_reviews : ℚ) / (c.num_subscribers : ℚ) else 0
         is_suspicious :=
           decide ((99 / 100 : ℚ) ≤ c.review_rate) && decide (c.num_subscribers < 50) }) := by
  unfold enhance_dataframe
  rw [getD_range_map _ _ _ _ h]
  cases hq : d.hasQualityCol <;> simp [hq]

/-! ### Claim C3 -/

/-- C3: for every dataset and every row, the Bayesian-adjusted score is
`(evidenceCount / (evidenceCount + minEvidence)) * rawScore +
(minEvidence / (evidenceCount + minEvidence)) * priorMean`, where
`priorMean` is the arithmetic mean of the raw score over the whole
dataset and `minEvidence` is 10; applied to the popularity metric and,
when the quality column is present, to the quality metric with its own
dataset-wide mean. -/
theorem c3_bayesian_formula (d : Dataset) (i : ℕ) (h : i < d.rows.length) :
    ((enhance_dataframe d).getD i default).bayesian_popularity
      = (((d.rows.getD i default).num_reviews : ℚ)
            / (((d.rows.getD i default).num_reviews : ℚ) + 10))
          * (d.rows.getD i default).popularity_score
        + (10 / (((d.rows.getD i default).num_reviews : ℚ) + 10))
          * ((d.rows.map Course.popularity_score).sum / (d.rows.length : ℚ))
    ∧ (d.hasQualityCol = true →
        ((enhance_dataframe d).getD i default).bayesian_quality
          = some ((((d.rows.getD i default).num_reviews : ℚ)
                / (((d.rows.getD i default).num_reviews : ℚ) + 10))
              * (d.rows.getD i default).quality_score
            + (10 / (((d.rows.getD i default).num_reviews : ℚ) + 10))
              * ((d.rows.map Course.quality_score).sum / (d.rows.length : ℚ)))) := by
  rw [enhance_getD d i h]
  refine ⟨?_, fun hq => ?_⟩
  · simpa using calc_bayes_getD d.rows Course.popularity_score Course.num_reviews 10 i h
  · simpa [hq] using calc_bayes_getD d.rows Course.quality_score Course.num_reviews 10 i h

/-- C3 witness: the formula evaluated on the concrete two-row dataset
`d3` at row 1 (10 reviews, raw popularity 1/4, popularity mean 3/8,
quality mean 2/5): both adjusted scores are computed concretely. -/
theorem c3_witness :
    ((enhance_dataframe d3).getD 1 default).bayesian_popularity = 5 / 16
    ∧ ((enhance_dataframe d3).getD 1 default).bayesian_quality = some (2 / 5) := by
  have h := c3_bayesian_formula d3 1 (by decide)
  refine ⟨?_, ?_⟩
  · rw [h.1]; norm_num [d3, baseCourse]
  · rw [h.2 (by decide)]; norm_num [d3, baseCourse]

/-! ### Claim C5 -/

/-- C5 counterexample: on the empty dataset the Bayesian scorer does
not fail at all — it returns normally with an empty score column, so it
does not produce the `InsufficientData` failure the claim requires. -/
theorem c5_counterexample :
    calcBayesianRun [] Course.popularity_score Course.num_reviews 10 = Except.ok []
    ∧ calcBayesianRun [] Course.popularity_score Course.num_reviews 10
        ≠ Except.error EngineError.insufficientData := by
  refine ⟨rfl, ?_⟩
  simp [calcBayesianRun]

/-- C5 amended: on an empty dataset the scorer returns an empty score
column as a normal (ok) result — it signals no `InsufficientData`
condition — and it produces no adjusted-score value at all (in
particular no NaN reaches any row). -/
theorem c5_empty_returns_ok (score : Course → ℚ) (countCol : Course → ℕ)
    (m : ℚ) :
    calcBayesianRun [] score countCol m = Except.ok []
    ∧ calculate_bayesian_average [] score countCol m = [] :=
  ⟨rfl, rfl⟩

/-! ### Claim C7 -/

/-- C7: the confidence tier is a pure, total function of the review
count alone: at least 100 reviews map to High, 20 to 99 to Medium, 5 to
19 to Low, at most 4 to Very Low; in particular the boundary counts 4,
5, 19, 20, 99, 100 map per the table. -/
theorem c7_confidence_table :
    (∀ n : ℕ,
      (calculate_confidence_level n = "High" ↔ 100 ≤ n)
      ∧ (calculate_confidence_level n = "Medium" ↔ 20 ≤ n ∧ n < 100)
      ∧ (calculate_confidence_level n = "Low" ↔ 5 ≤ n ∧ n < 20)
      ∧ (calculate_confidence_level n = "Very Low" ↔ n < 5))
    ∧ calculate_confidence_level 4 = "Very Low"
    ∧ calculate_confidence_level 5 = "Low"
    ∧ calculate_confidence_level 19 = "Low"
    ∧ calculate_confidence_level 20 = "Medium"
    ∧ calculate_confidence_level 99 = "Medium"
    ∧ calculate_confidence_level 100 = "High" := by
  refine ⟨fun n => ?_, rfl, rfl, rfl, rfl, rfl, rfl⟩
  unfold calculate_confidence_level
  split_ifs with h1 h2 h3
  · exact ⟨iff_of_true rfl h1, iff_of_false (by decide) (by omega),
      iff_of_false (by decide) (by omega), iff_of_false (by decide) (by omega)⟩
  · exact ⟨iff_of_false (by decide) (by omega), iff_of_true rfl (by omega),
      iff_of_false (by decide) (by omega), iff_of_false (by decide) (by omega)⟩
  · exact ⟨iff_of_false (by decide) (by omega), iff_of_false (by decide) (by omega),
      iff_of_true rfl (by omega), iff_of_false (by decide) (by omega)⟩
  · exact ⟨iff_of_false (by decide) (by omega), iff_of_false (by decide) (by omega),
      iff_of_false (by decide) (by omega), iff_of_true rfl (by omega)⟩

/-! ### Claim C8 -/

/-- C8: in the enriched dataset a row's suspicion flag is true iff its
engagement-rate column is at least 0.99 and its subscriber count is
below 50; a row with exactly 50 subscribers is never flagged. -/
theorem c8_suspicious_iff (d : Dataset) (e : ECourse)
    (he : e ∈ enhance_dataframe d) :
    (e.is_suspicious = true ↔ ((99 / 100 : ℚ) ≤ e.review_rate ∧ e.num_subscribers < 50))
    ∧ (e.num_subscribers = 50 → e.is_suspicious = false) := by
  have hiff : e.is_suspicious = true
      ↔ ((99 / 100 : ℚ) ≤ e.review_rate ∧ e.num_subscribers < 50) := by
    unfold enhance_dataframe at he
    simp only [List.mem_map, List.mem_range] at he
    obtain ⟨i, hi, rfl⟩ := he
    simp [Bool.and_eq_true, decide_eq_true_iff]
  refine ⟨hiff, fun h50 => ?_⟩
  cases hb : e.is_suspicious
  · rfl
  · exact absurd (hiff.mp hb).2 (by omega)

/-- C8 witness: the single row of `d8` (engagement-rate column 1, 10
subscribers) is flagged suspicious. -/
theorem c8_witness : ((enhance_dataframe d8).getD 0 default).is_suspicious = true := by
  have hlen : (0 : ℕ) < (enhance_dataframe d8).length := by
    rw [enhance_length]; decide
  have he : (enhance_dataframe d8).getD 0 default ∈ enhance_dataframe d8 := by
    rw [List.getD_eq_getElem _ _ hlen]
    exact List.getElem_mem hlen
  refine (c8_suspicious_iff d8 _ he).1.mpr ?_
  rw [enhance_getD d8 0 (by decide)]
  refine ⟨?_, ?_⟩
  · norm_num [d8, baseCourse]
  · simp [d8, baseCourse]

/-! ### Claim C4 -/

/-- C4 counterexample: `d4a` and `d4b` agree on review and subscriber
counts for every row and differ only in the stored engagement-rate
column (`review_rate` 1 versus 0); enrichment flags the row of `d4a` as
suspicious but not the row of `d4b`, so the flag does depend on the
input-supplied engagement-rate column. -/
theorem c4_counterexample :
    d4a.rows.map Course.num_reviews = d4b.rows.map Course.num_reviews
    ∧ d4a.rows.map Course.num_subscribers = d4b.rows.map Course.num_subscribers
    ∧ ((enhance_dataframe d4a).getD 0 default).is_suspicious = true
    ∧ ((enhance_dataframe d4b).getD 0 default).is_suspicious = false := by
  refine ⟨by decide, by decide, ?_, ?_⟩
  · rw [enhance_getD d4a 0 (by decide)]
    simp [d4a, baseCourse]
    norm_num
  · rw [enhance_getD d4b 0 (by decide)]
    simp [d4b, baseCourse]

/-- C4 amended: the suspicion flag is computed from the input-supplied
engagement-rate column (`review_rate`) and the subscriber count — not
from the recomputed engagement rate: any two datasets agreeing at a row
on `review_rate` and `num_subscribers` get the same flag there, while
the separately stored recomputed rate (`engagement_per_subscriber`)
equals reviews divided by subscribers, 0 when there are no
subscribers. -/
theorem c4_flag_uses_input_rate (d d' : Dataset) (i : ℕ)
    (h : i < d.rows.length) (h' : i < d'.rows.length)
    (hr : (d.rows.getD i default).review_rate = (d'.rows.getD i default).review_rate)
    (hs : (d.rows.getD i default).num_subscribers = (d'.rows.getD i default).num_subscribers) :
    ((enhance_dataframe d).getD i default).is_suspicious
      = ((enhance_dataframe d').getD i default).is_suspicious
    ∧ ((enhance_dataframe d).getD i default).engagement_per_subscriber
      = (if 0 < (d.rows.getD i default).num_subscribers
          then ((d.rows.getD i default).num_reviews : ℚ)
            / ((d.rows.getD i default).num_subscribers : ℚ)
          else 0) := by
  rw [enhance_getD d i h, enhance_getD d' i h']
  refine ⟨?_, by simp⟩
  simp only [List.getD, List.get?_eq_getElem?] at hr hs
  simp [hr, hs]

/-- C4 witness: `d4a` and `d4c` agree on the engagement-rate column and
subscriber count of their single row (while differing in title and
price), so enrichment gives them the same suspicion flag. -/
theorem c4_witness :
    ((enhance_dataframe d4a).getD 0 default).is_suspicious
      = ((enhance_dataframe d4c).getD 0 default).is_suspicious := by
  exact (c4_flag_uses_input_rate d4a d4c 0 (by decide) (by decide)
    (by simp [d4a, d4c, baseCourse]) (by decide)).1

/-! ### Claim C10 -/

/-- C10: enrichment preserves the input frame: the enriched dataset has
the same number of rows, and every pre-existing column value of every
row is unchanged — the derived fields only extend each row.  (The input
frame itself is untouched by construction: `enhance_dataframe` operates
on `df.copy()`.) -/
theorem c10_enhance_preserves (d : Dataset) :
    (enhance_dataframe d).length = d.rows.length
    ∧ ∀ i, i < d.rows.length →
      ((enhance_dataframe d).getD i default).course_id = (d.rows.getD i default).course_id
      ∧ ((enhance_dataframe d).getD i default).course_title = (d.rows.getD i default).course_title
      ∧ ((enhance_dataframe d).getD i default).subject = (d.rows.getD i default).subject
      ∧ ((enhance_dataframe d).getD i default).level = (d.rows.getD i default).level
      ∧ ((enhance_dataframe d).getD i default).price = (d.rows.getD i default).price
      ∧ ((enhance_dataframe d).getD i default).num_subscribers = (d.rows.getD i default).num_subscribers
      ∧ ((enhance_dataframe d).getD i default).num_reviews = (d.rows.getD i default).num_reviews
      ∧ ((enhance_dataframe d).getD i default).review_rate = (d.rows.getD i default).review_rate
      ∧ ((enhance_dataframe d).getD i default).popularity_score = (d.rows.getD i default).popularity_score
      ∧ ((enhance_dataframe d).getD i default).quality_score = (d.rows.getD i default).quality_score
      ∧ ((enhance_dataframe d).getD i default).content_duration = (d.rows.getD i default).content_duration := by
  refine ⟨enhance_length d, fun i h => ?_⟩
  rw [enhance_getD d i h]
  exact ⟨rfl, rfl, rfl, rfl, rfl, rfl, rfl, rfl, rfl, rfl, rfl⟩

/-- C10 witness: on the one-row dataset `d10`, enrichment keeps the row
count and the row's pre-existing title and price. -/
theorem c10_witness :
    (enhance_dataframe d10).length = d10.rows.length
    ∧ ((enhance_dataframe d10).getD 0 default).course_title = (d10.rows.getD 0 default).course_title
    ∧ ((enhance_dataframe d10).getD 0 default).price = (d10.rows.getD 0 default).price := by
  refine ⟨(c10_enhance_preserves d10).1, ?_, ?_⟩
  · exact ((c10_enhance_preserves d10).2 0 (by decide)).2.1
  · exact ((c10_enhance_preserves d10).2 0 (by decide)).2.2.2.2.1

/-! ### Sorting and candidate-walk lemmas -/

lemma sortDesc_cons (x : ℕ × ℚ) (l : List (ℕ × ℚ)) :
    sortDesc (x :: l) = insertDesc x (sortDesc l) := rfl

lemma mem_insertDesc {x z : ℕ × ℚ} {l : List (ℕ × ℚ)} :
    z ∈ insertDesc x l ↔ z = x ∨ z ∈ l := by
  induction l with
  | nil => simp [insertDesc]
  | cons y ys ih =>
    unfold insertDesc
    by_cases hc : y.2 ≤ x.2
    · simp [hc]
    · simp [hc, ih]
      tauto

lemma mem_sortDesc {z : ℕ × ℚ} {l : List (ℕ × ℚ)} :
    z ∈ sortDesc l ↔ z ∈ l := by
  induction l with
  | nil => simp [sortDesc]
  | cons y ys ih =>
    rw [sortDesc_cons, mem_insertDesc]
    simp [ih]

lemma pairwise_stableLex_insertDesc {x : ℕ × ℚ} {l : List (ℕ × ℚ)}
    (hl : List.Pairwise stableLex l) (hx : ∀ z ∈ l, x.1 < z.1) :
    List.Pairwise stableLex (insertDesc x l) := by
  induction l with
  | nil => simp [insertDesc, List.pairwise_singleton]
  | cons y ys ih =>
    rw [List.pairwise_cons] at hl
    obtain ⟨hy, hys⟩ := hl
    unfold insertDesc
    by_cases hc : y.2 ≤ x.2
    · rw [if_pos hc]
      refine List.Pairwise.cons ?_ (List.Pairwise.cons hy hys)
      intro z hz
      rcases List.mem_cons.mp hz with rfl | hz
      · rcases lt_or_eq_of_le hc with hlt | heq
        · exact Or.inl hlt
        · exact Or.inr ⟨heq.symm, hx z (List.mem_cons_self _ _)⟩
      · have hz2 : z.2 ≤ x.2 := by
          rcases hy z hz with hlt | ⟨heq, _⟩
          · exact le_trans (le_of_lt hlt) hc
          · exact le_trans (le_of_eq heq.symm) hc
        rcases lt_or_eq_of_le hz2 with hlt | heq
        · exact Or.inl hlt
        · exact Or.inr ⟨heq.symm, hx z (List.mem_cons_of_mem y hz)⟩
    · rw [if_neg hc]
      refine List.Pairwise.cons ?_ (ih hys (fun z hz => hx z (List.mem_cons_of_mem y hz)))
      intro z hz
      rcases mem_insertDesc.mp hz with rfl | hz
      · exact Or.inl (lt_of_not_le hc)
      · exact hy z hz

lemma pairwise_fst_lt_sortDesc {l : List (ℕ × ℚ)}
    (h : List.Pairwise (fun a b => a.1 < b.1) l) :
    List.Pairwise stableLex (sortDesc l) := by
  induction l with
  | nil => simp [sortDesc]
  | cons x xs ih =>
    rw [List.pairwise_cons] at h
    rw [sortDesc_cons]
    exact pairwise_stableLex_insertDesc (ih h.2)
      (fun z hz => h.1 z (mem_sortDesc.mp hz))

lemma le_fst_of_mem_enumFrom {α : Type} {p : ℕ × α} {n : ℕ} {l : List α}
    (h : p ∈ l.enumFrom n) : n ≤ p.1 := by
  induction l generalizing n with
  | nil => simp [List.enumFrom] at h
  | cons x xs ih =>
    rcases List.mem_cons.mp h with rfl | h
    · exact le_refl _
    · exact le_trans (Nat.le_succ n) (ih h)

lemma pairwise_fst_lt_enumFrom {α : Type} (n : ℕ) (l : List α) :
    List.Pairwise (fun a b => a.1 < b.1) (l.enumFrom n) := by
  induction l generalizing n with
  | nil => simp [List.enumFrom]
  | cons x xs ih =>
    refine List.Pairwise.cons ?_ (ih (n + 1))
    intro z hz
    exact lt_of_lt_of_le (Nat.lt_succ_self n) (le_fst_of_mem_enumFrom hz)

lemma pairwise_fst_lt_enum {α : Type} (l : List α) :
    List.Pairwise (fun a b => a.1 < b.1) l.enum :=
  pairwise_fst_lt_enumFrom 0 l

lemma fst_lt_of_mem_enum {α : Type} {p : ℕ × α} {l : List α}
    (h : p ∈ l.enum) : p.1 < l.length := by
  rw [List.mem_enum_iff_getElem?] at h
  exact (List.getElem?_eq_some.mp h).1

lemma recLoop_ok_of_bounds (df : List ECourse) (mr n : ℕ)
    (pairs : List (ℕ × ℚ)) (acc : List RecEntry)
    (hb : ∀ p ∈ pairs, p.1 < df.length) :
    ∃ l, recLoop df mr n pairs acc = Except.ok l := by
  induction pairs generalizing acc with
  | nil => exact ⟨acc, rfl⟩
  | cons p rest ih =>
    simp only [recLoop]
    rw [if_pos (hb p (List.mem_cons_self _ _))]
    by_cases hn : n ≤ (if mr ≤ (df.getD p.1 default).num_reviews
        ∧ (df.getD p.1 default).is_suspicious = false
      then acc ++ [mkRecEntry (df.getD p.1 default) p.2] else acc).length
    · exact ⟨_, by rw [if_pos hn]⟩
    · rw [if_neg hn]
      exact ih _ (fun q hq => hb q (List.mem_cons_of_mem _ hq))

lemma recLoop_length_le (df : List ECourse) (mr n : ℕ)
    (pairs : List (ℕ × ℚ)) (acc : List RecEntry) (l : List RecEntry)
    (hacc : acc.length < max n 1)
    (hok : recLoop df mr n pairs acc = Except.ok l) :
    l.length ≤ max n 1 := by
  induction pairs generalizing acc with
  | nil =>
    simp only [recLoop, Except.ok.injEq] at hok
    subst hok
    omega
  | cons p rest ih =>
    simp only [recLoop] at hok
    by_cases hp : p.1 < df.length
    · rw [if_pos hp] at hok
      generalize hA : (if mr ≤ (df.getD p.1 default).num_reviews
          ∧ (df.getD p.1 default).is_suspicious = false
        then acc ++ [mkRecEntry (df.getD p.1 default) p.2] else acc) = A at hok
      have hlen : A.length ≤ acc.length + 1 := by
        rw [← hA]; split <;> simp
      by_cases hn : n ≤ A.length
      · rw [if_pos hn] at hok
        simp only [Except.ok.injEq] at hok
        subst hok
        omega
      · rw [if_neg hn] at hok
        exact ih A (by omega) hok
    · rw [if_neg hp] at hok
      exact absurd hok (by simp)

lemma recLoop_eq_map_recLoopP (df : List ECourse) (mr n : ℕ)
    (pairs : List (ℕ × ℚ)) (accP : List (ℕ × ℚ)) :
    recLoop df mr n pairs (accP.map (mkEntryAt df))
      = Except.map (fun lp => lp.map (mkEntryAt df))
          (recLoopP df mr n pairs accP) := by
  induction pairs generalizing accP with
  | nil => rfl
  | cons p rest ih =>
    simp only [recLoop, recLoopP]
    by_cases hp : p.1 < df.length
    · rw [if_pos hp, if_pos hp]
      by_cases hadmit : mr ≤ (df.getD p.1 default).num_reviews
          ∧ (df.getD p.1 default).is_suspicious = false
      · rw [if_pos hadmit, if_pos hadmit]
        have hmap : accP.map (mkEntryAt df) ++ [mkRecEntry (df.getD p.1 default) p.2]
            = (accP ++ [p]).map (mkEntryAt df) := by
          simp [mkEntryAt]
        rw [hmap]
        by_cases hn : n ≤ (accP ++ [p]).length
        · rw [if_pos (by simpa using hn), if_pos hn]
          rfl
        · rw [if_neg (by simpa using hn), if_neg hn]
          exact ih (accP ++ [p])
      · rw [if_neg hadmit, if_neg hadmit]
        by_cases hn : n ≤ accP.length
        · rw [if_pos (by simpa using hn), if_pos hn]
          rfl
        · rw [if_neg (by simpa using hn), if_neg hn]
          exact ih accP
    · rw [if_neg hp, if_neg hp]
      rfl

lemma get_recommendations_eq_map (cid : ℕ) (df : List ECourse)
    (sim : List (List ℚ)) (n mr : ℕ) :
    get_recommendations cid df sim n mr
      = Except.map (fun lp => lp.map (mkEntryAt df))
          (getRecPairs cid df sim n mr) := by
  unfold get_recommendations getRecPairs
  cases hf : df.findIdx? (fun c => c.course_id == cid) with
  | none => rfl
  | some idx =>
    dsimp only
    cases hr : sim.get? idx with
    | none => rfl
    | some row => exact recLoop_eq_map_recLoopP df mr n (sortDesc row.enum).tail []

lemma recLoopP_sublist (df : List ECourse) (mr n : ℕ)
    (pairs : List (ℕ × ℚ)) (accP : List (ℕ × ℚ)) (lp : List (ℕ × ℚ))
    (hok : recLoopP df mr n pairs accP = Except.ok lp) :
    ∃ s, lp = accP ++ s ∧ s.Sublist pairs := by
  induction pairs generalizing accP with
  | nil =>
    simp only [recLoopP, Except.ok.injEq] at hok
    exact ⟨[], by simp [hok], List.nil_sublist _⟩
  | cons p rest ih =>
    simp only [recLoopP] at hok
    by_cases hp : p.1 < df.length
    · rw [if_pos hp] at hok
      by_cases hadmit : mr ≤ (df.getD p.1 default).num_reviews
          ∧ (df.getD p.1 default).is_suspicious = false
      · rw [if_pos hadmit] at hok
        by_cases hn : n ≤ (accP ++ [p]).length
        · rw [if_pos hn] at hok
          simp only [Except.ok.injEq] at hok
          exact ⟨[p], by simp [hok], (List.nil_sublist rest).cons₂ p⟩
        · rw [if_neg hn] at hok
          obtain ⟨s, hs1, hs2⟩ := ih (accP ++ [p]) hok
          refine ⟨p :: s, ?_, hs2.cons₂ p⟩
          rw [hs1]
          simp
      · rw [if_neg hadmit] at hok
        by_cases hn : n ≤ accP.length
        · rw [if_pos hn] at hok
          simp only [Except.ok.injEq] at hok
          exact ⟨[], by simp [hok], List.nil_sublist _⟩
        · rw [if_neg hn] at hok
          obtain ⟨s, hs1, hs2⟩ := ih accP hok
          exact ⟨s, hs1, hs2.cons p⟩
    · rw [if_neg hp] at hok
      exact absurd hok (by simp)

lemma recLoop_nil_of_no_admit (df : List ECourse) (mr n : ℕ)
    (pairs : List (ℕ × ℚ))
    (hnone : ∀ c ∈ df, ¬(mr ≤ c.num_reviews ∧ c.is_suspicious = false))
    (hb : ∀ p ∈ pairs, p.1 < df.length) :
    recLoop df mr n pairs [] = Except.ok [] := by
  induction pairs with
  | nil => rfl
  | cons p rest ih =>
    have hp := hb p (List.mem_cons_self _ _)
    simp only [recLoop]
    rw [if_pos hp]
    have hmem : df.getD p.1 default ∈ df := by
      rw [List.getD_eq_getElem _ _ hp]
      exact List.getElem_mem hp
    rw [if_neg (hnone _ hmem)]
    by_cases hn : n ≤ ([] : List RecEntry).length
    · rw [if_pos hn]
    · rw [if_neg hn]
      exact ih (fun q hq => hb q (List.mem_cons_of_mem _ hq))

/-! ### Claim C2 -/

/-- C2: with a similarity matrix matching the dataset (one square row
per course), the query takes the error path (the caught `IndexError`,
surfaced as `st.error` plus an empty frame) exactly when the queried
course identity is absent; when the identity is present but no course
passes the review-count and suspicion filters it returns an empty
result as a normal success, and the two outcomes are distinct values of
the error channel. -/
theorem c2_notfound_iff_absent (df : List ECourse) (sim : List (List ℚ))
    (cid n mr : ℕ)
    (hsq : sim.length = df.length)
    (hrow : ∀ r ∈ sim, r.length = df.length) :
    (get_recommendations cid df sim n mr = Except.error ()
      ↔ ∀ c ∈ df, c.course_id ≠ cid)
    ∧ ((∃ c ∈ df, c.course_id = cid) →
        (∀ c ∈ df, ¬(mr ≤ c.num_reviews ∧ c.is_suspicious = false)) →
        get_recommendations cid df sim n mr = Except.ok [])
    ∧ (Except.error () : Except Unit (List RecEntry)) ≠ Except.ok [] := by
  have hbound : ∀ idx row, sim.get? idx = some row →
      ∀ p ∈ (sortDesc row.enum).tail, p.1 < df.length := by
    intro idx row hr p hp
    have hmem : p ∈ sortDesc row.enum := List.mem_of_mem_tail hp
    have h1 : p.1 < row.length := fst_lt_of_mem_enum (mem_sortDesc.mp hmem)
    have h2 : row ∈ sim := List.get?_mem hr
    rw [← hrow row h2]
    exact h1
  refine ⟨?_, ?_, by simp⟩
  · unfold get_recommendations
    cases hf : df.findIdx? (fun c => c.course_id == cid) with
    | none =>
      dsimp only
      rw [List.findIdx?_eq_none_iff] at hf
      constructor
      · intro _ c hc
        have := hf c hc
        simpa using this
      · intro _
        rfl
    | some idx =>
      dsimp only
      obtain ⟨hidx, hp, -⟩ := List.findIdx?_eq_some_iff_getElem.mp hf
      obtain ⟨row, hr⟩ : ∃ row, sim.get? idx = some row := by
        rw [List.get?_eq_getElem?]
        exact ⟨_, List.getElem?_eq_getElem (hsq ▸ hidx)⟩
      rw [hr]
      dsimp only
      constructor
      · intro herr
        obtain ⟨l, hl⟩ := recLoop_ok_of_bounds df mr n _ [] (hbound idx row hr)
        rw [hl] at herr
        exact absurd herr (by simp)
      · intro habs
        exfalso
        exact habs _ (List.getElem_mem hidx) (by simpa using hp)
  · rintro ⟨c, hc, hcid⟩ hnone
    unfold get_recommendations
    cases hf : df.findIdx? (fun c => c.course_id == cid) with
    | none =>
      rw [List.findIdx?_eq_none_iff] at hf
      have := hf c hc
      simp [hcid] at this
    | some idx =>
      dsimp only
      obtain ⟨hidx, -, -⟩ := List.findIdx?_eq_some_iff_getElem.mp hf
      obtain ⟨row, hr⟩ : ∃ row, sim.get? idx = some row := by
        rw [List.get?_eq_getElem?]
        exact ⟨_, List.getElem?_eq_getElem (hsq ▸ hidx)⟩
      rw [hr]
      dsimp only
      exact recLoop_nil_of_no_admit df mr n _ hnone (hbound idx row hr)

/-- C2 witness: on the one-course frame `dfC2` (course identity 1), the
query for the absent identity 2 takes the error path, while the query
for the present identity 1 with `min_reviews = 1000` (which no course
meets) succeeds with an empty result. -/
theorem c2_witness :
    get_recommendations 2 dfC2 simC2 5 5 = Except.error ()
    ∧ get_recommendations 1 dfC2 simC2 5 1000 = Except.ok [] := by
  constructor
  · exact (c2_notfound_iff_absent dfC2 simC2 2 5 5 (by decide)
      (by intro r hr; simp only [simC2, List.mem_singleton] at hr; subst hr; decide)).1.mpr
      (by decide)
  · exact (c2_notfound_iff_absent dfC2 simC2 1 5 1000 (by decide)
      (by intro r hr; simp only [simC2, List.mem_singleton] at hr; subst hr; decide)).2.1
      ⟨baseECourse, List.mem_cons_self _ _, rfl⟩ (by decide)

/-! ### Claim C6 -/

/-- C6 counterexample: with `topN = 0` the walk still admits the first
qualifying candidate before the `len(recommendations) >= n` break fires,
so the result holds one entry — more than `topN`.  Query course 1 of
`dfC6` with `n = 0`, `min_reviews = 5`: the result has length 1. -/
theorem c6_counterexample :
    ¬(((get_recommendations 1 dfC6 simC6 0 5).toOption.getD []).length ≤ 0) := by
  have h : get_recommendations 1 dfC6 simC6 0 5
      = Except.ok [mkRecEntry (dfC6.getD 1 default) 1] := by rfl
  rw [h]
  simp [Except.toOption]

/-- C6 amended: whenever `get_recommendations` succeeds with result `l`,
then `l` has at most `max topN 1` entries (at most `topN` whenever
`topN ≥ 1`; one entry can slip through when `topN = 0`), `l` is ordered
by similarity score descending, and `l` is the image of the admitted
`(row index, similarity)` pairs, which are ordered by similarity
descending with ties in original row order (stable tie-break). -/
theorem c6_size_order_stable (cid : ℕ) (df : List ECourse)
    (sim : List (List ℚ)) (n mr : ℕ) (l : List RecEntry)
    (hok : get_recommendations cid df sim n mr = Except.ok l) :
    l.length ≤ max n 1
    ∧ List.Pairwise (fun a b => b.similarity_score ≤ a.similarity_score) l
    ∧ ∀ lp, getRecPairs cid df sim n mr = Except.ok lp →
        l = lp.map (mkEntryAt df) ∧ List.Pairwise stableLex lp := by
  cases hgp : getRecPairs cid df sim n mr with
  | error e =>
    have hmap := get_recommendations_eq_map cid df sim n mr
    rw [hok, hgp] at hmap
    exact absurd hmap (by simp [Except.map])
  | ok lp =>
    have hmap := get_recommendations_eq_map cid df sim n mr
    rw [hok, hgp] at hmap
    simp only [Except.map, Except.ok.injEq] at hmap
    have hgp0 := hgp
    unfold getRecPairs at hgp
    cases hf : df.findIdx? (fun c => c.course_id == cid) with
    | none =>
      rw [hf] at hgp
      exact absurd hgp (by simp)
    | some idx =>
      rw [hf] at hgp
      dsimp only at hgp
      cases hr : sim.get? idx with
      | none =>
        rw [hr] at hgp
        exact absurd hgp (by simp)
      | some row =>
        rw [hr] at hgp
        dsimp only at hgp
        obtain ⟨s, hs1, hs2⟩ := recLoopP_sublist df mr n _ [] lp hgp
        simp only [List.nil_append] at hs1
        subst hs1
        have hsorted : List.Pairwise stableLex (sortDesc row.enum) :=
          pairwise_fst_lt_sortDesc (pairwise_fst_lt_enum row)
        have hpair : List.Pairwise stableLex lp :=
          List.Pairwise.sublist hs2
            (List.Pairwise.sublist (List.tail_sublist _) hsorted)
        have hok' : recLoop df mr n (sortDesc row.enum).tail [] = Except.ok l := by
          unfold get_recommendations at hok
          rw [hf] at hok
          dsimp only at hok
          rw [hr] at hok
          dsimp only at hok
          exact hok
        have hlen := recLoop_length_le df mr n _ [] l
          (lt_max_of_lt_right zero_lt_one) hok'
        refine ⟨hlen, ?_, ?_⟩
        · rw [hmap]
          refine List.Pairwise.map _ ?_ hpair
          intro a b hab
          rcases hab with hlt | ⟨heq, _⟩
          · exact le_of_lt hlt
          · exact le_of_eq heq.symm
        · intro lp' hgp'
          simp only [Except.ok.injEq] at hgp'
          subst hgp'
          exact ⟨hmap, hpair⟩

/-- C6 witness: querying course 1 of `dfC6` with `topN = 5`,
`min_reviews = 5` succeeds with the two qualifying candidates; the
theorem gives the size bound and the descending order concretely. -/
theorem c6_witness :
    ([mkEntryAt dfC6 (1, 1), mkEntryAt dfC6 (2, 0)] : List RecEntry).length ≤ max 5 1
    ∧ List.Pairwise (fun a b => b.similarity_score ≤ a.similarity_score)
        ([mkEntryAt dfC6 (1, 1), mkEntryAt dfC6 (2, 0)] : List RecEntry) := by
  have h := c6_size_order_stable 1 dfC6 simC6 5 5
    [mkEntryAt dfC6 (1, 1), mkEntryAt dfC6 (2, 0)] (by rfl)
  exact ⟨h.1, h.2.1⟩

/-! ### Claim C1 -/

/-- C1 failing input, evaluated: courses 1 and 2 of `dfDup` have
identical content, so the similarity of course 2 to course 1 is exactly
1, tying with its self-similarity.  The stable descending sort keeps
the tie in row order, so the query course's own pair is not first;
line 98's `sim_scores[1:]` removes course 1 instead, and the query
course 2 is returned as its own recommendation — the result's only
entry carries `course_id = 2`, the queried identity. -/
theorem c1_query_course_in_result :
    ((get_recommendations 2 dfDup simDup 5 5).toOption.getD []).map
        RecEntry.course_id = [2] := by
  rfl

/-! ### Dot-product and normalization lemmas -/

lemma dotR_comm (v w : List ℝ) : dotR v w = dotR w v := by
  induction v generalizing w with
  | nil => cases w <;> simp [dotR]
  | cons x xs ih =>
    cases w with
    | nil => simp [dotR]
    | cons y ys =>
      simp only [dotR, ih]
      ring

lemma dotR_self_nonneg (v : List ℝ) : 0 ≤ dotR v v := by
  induction v with
  | nil => simp [dotR]
  | cons x xs ih =>
    simp only [dotR]
    have := mul_self_nonneg x
    linarith

lemma sq_le_dotR_self {x : ℝ} {v : List ℝ} (h : x ∈ v) :
    x * x ≤ dotR v v := by
  induction v with
  | nil => simp at h
  | cons y ys ih =>
    rcases List.mem_cons.mp h with rfl | h
    · simp only [dotR]
      have := dotR_self_nonneg ys
      linarith
    · simp only [dotR]
      have h1 := mul_self_nonneg y
      have h2 := ih h
      linarith

lemma dotR_self_zero {v : List ℝ} (h : ∀ x ∈ v, x = 0) : dotR v v = 0 := by
  induction v with
  | nil => simp [dotR]
  | cons y ys ih =>
    simp only [dotR]
    rw [h y (List.mem_cons_self _ _), ih (fun x hx => h x (List.mem_cons_of_mem _ hx))]
    ring

lemma dotR_self_eq_zero_iff {v : List ℝ} :
    dotR v v = 0 ↔ ∀ x ∈ v, x = 0 := by
  constructor
  · intro h x hx
    have h1 := sq_le_dotR_self hx
    have h2 := mul_self_nonneg x
    have : x * x = 0 := le_antisymm (h ▸ h1) h2
    exact mul_self_eq_zero.mp this
  · exact dotR_self_zero

lemma dotR_map_div (v w : List ℝ) (c d : ℝ) :
    dotR (v.map (fun x => x / c)) (w.map (fun y => y / d))
      = dotR v w / (c * d) := by
  induction v generalizing w with
  | nil => cases w <;> simp [dotR]
  | cons x xs ih =>
    cases w with
    | nil => simp [dotR]
    | cons y ys =>
      simp only [List.map_cons, dotR, ih]
      rw [div_mul_div_comm, div_add_div_same]

lemma dotR_l2normalize_self (v : List ℝ) :
    dotR (l2normalize v) (l2normalize v) = if dotR v v = 0 then 0 else 1 := by
  unfold l2normalize
  by_cases h : Real.sqrt (dotR v v) = 0
  · have h0 : dotR v v = 0 :=
      le_antisymm (Real.sqrt_eq_zero'.mp h) (dotR_self_nonneg v)
    rw [if_pos h, if_pos h0]
    exact h0
  · have hvv : dotR v v ≠ 0 := by
      intro h0
      exact h (by rw [h0, Real.sqrt_zero])
    rw [if_neg h, if_neg hvv, dotR_map_div,
      Real.mul_self_sqrt (dotR_self_nonneg v)]
    exact div_self hvv

/-! ### Claim C9 -/

/-- C9 counterexample: `rows9` is non-empty and its corpus yields the
vocabulary term "python", yet the second course's content is empty, its
feature vector is the zero vector, and its diagonal similarity entry is
0, not 1. -/
theorem c9_counterexample :
    rows9 ≠ []
    ∧ vocabulary (docsOf rows9) = ["python"]
    ∧ (build_recommender rows9).1 1 1 = 0
    ∧ (build_recommender rows9).1 1 1 ≠ 1 := by
  have hdocs : docsOf rows9 = [["python"], []] := by decide
  have hvoc : vocabulary [["python"], []] = ["python"] := by decide
  have hM : (tfidfMatrix rows9).getD 1 [] = [0] := by
    rw [tfidfMatrix, hdocs]
    have hrow : tfidfRow [["python"], []] [] = [0] := by
      rw [tfidfRow, hvoc]
      simp
    simp only [List.map_cons, List.map_nil, hrow]
    have hnorm : l2normalize [(0 : ℝ)] = [0] := by
      unfold l2normalize
      rw [if_pos]
      simp [dotR]
    simp [hnorm]
  have hzero : (build_recommender rows9).1 1 1 = 0 := by
    show cosine_similarity (tfidfMatrix rows9) 1 1 = 0
    unfold cosine_similarity
    rw [hM]
    have hnorm : l2normalize [(0 : ℝ)] = [0] := by
      unfold l2normalize
      rw [if_pos]
      simp [dotR]
    rw [hnorm]
    simp [dotR]
  refine ⟨by simp [rows9], by rw [hdocs]; exact hvoc, hzero, ?_⟩
  rw [hzero]
  norm_num

/-- C9 amended: the cosine-similarity matrix of `build_recommender` is
symmetric for every dataset; a diagonal entry equals 1 whenever that
row's tf-idf feature vector is nonzero (in particular whenever the
row's content yields at least one vocabulary term), and equals 0 when
the row's feature vector is the zero vector (content with no
extractable term) — even when the rest of the corpus has terms. -/
theorem c9_symmetric_unit_diag (rows : List Course) (i j : ℕ) :
    (build_recommender rows).1 i j = (build_recommender rows).1 j i
    ∧ ((∃ x ∈ (tfidfMatrix rows).getD i [], x ≠ 0) →
        (build_recommender rows).1 i i = 1)
    ∧ ((∀ x ∈ (tfidfMatrix rows).getD i [], x = 0) →
        (build_recommender rows).1 i i = 0) := by
  refine ⟨?_, ?_, ?_⟩
  · show cosine_similarity (tfidfMatrix rows) i j
      = cosine_similarity (tfidfMatrix rows) j i
    unfold cosine_similarity
    exact dotR_comm _ _
  · rintro ⟨x, hx, hx0⟩
    show cosine_similarity (tfidfMatrix rows) i i = 1
    unfold cosine_similarity
    rw [dotR_l2normalize_self]
    rw [if_neg]
    intro h0
    exact hx0 (dotR_self_eq_zero_iff.mp h0 x hx)
  · intro hall
    show cosine_similarity (tfidfMatrix rows) i i = 0
    unfold cosine_similarity
    rw [dotR_l2normalize_self]
    rw [if_pos (dotR_self_zero hall)]

/-- C9 witness: for the one-course corpus `rows9w` the single tf-idf
row is the nonzero vector `[1]` (idf of a term in every document is
`ln((1+1)/(1+1)) + 1 = 1`), so the diagonal entry is 1. -/
theorem c9_witness : (build_recommender rows9w).1 0 0 = 1 := by
  have hdocs : docsOf rows9w = [["python"]] := by decide
  have hvoc : vocabulary [["python"]] = ["python"] := by decide
  have hM : (tfidfMatrix rows9w).getD 0 [] = [1] := by
    rw [tfidfMatrix, hdocs]
    have hrow : tfidfRow [["python"]] ["python"] = [1] := by
      rw [tfidfRow, hvoc]
      have hidf : idf [["python"]] "python" = 1 := by
        unfold idf
        have hdf : docFreq [["python"]] "python" = 1 := by decide
        rw [hdf]
        norm_num [Real.log_one]
      simp [hidf]
    simp only [List.map_cons, List.map_nil, hrow]
    have hnorm : l2normalize [(1 : ℝ)] = [1] := by
      unfold l2normalize
      rw [if_neg]
      · simp [dotR]
      · simp [dotR]
    simp [hnorm]
  exact (c9_symmetric_unit_diag rows9w 0 0).2.1
    (by rw [hM]; exact ⟨1, List.mem_cons_self _ _, one_ne_zero⟩)
